import Mathlib

/-!
Shallow embedding of the fire particle simulation (`fire_entropy.py`).

Python floats are modelled as real numbers; `math.sin`, `math.cos`,
`math.tau` and the float power operator `**` become `Real.sin`,
`Real.cos`, `2 * Real.pi` and `Real.rpow`.  Calls to the random number
generator are modelled by explicit draw parameters: each call site of
`random.random()` receives its own draw value, assumed to lie in `[0,1)`
where a theorem needs it.  `random.uniform(a, b)` is `a + (b - a) * u`
for a draw `u`.  The mutable `self.particles` list becomes explicit
list passing.
-/

namespace FireEntropy

open Real

/-- 3D vector, mirroring `QVector3D` as used by the program. -/
structure Vec3 where
  x : ℝ
  y : ℝ
  z : ℝ

/-- Dot product, mirroring `QVector3D.dotProduct`. -/
def Vec3.dot (a b : Vec3) : ℝ := a.x * b.x + a.y * b.y + a.z * b.z

/-- The `FireParticle` dataclass. -/
structure FireParticle where
  pos : Vec3
  vel : Vec3
  life : ℝ
  life0 : ℝ
  radius : ℝ
  seed : ℝ

/-- FireWidget._clamp01. -/
noncomputable def clamp01 (x : ℝ) : ℝ := max 0 (min 1 x)

/-- FireWidget._lerp. -/
def lerp (a b t : ℝ) : ℝ := a + (b - a) * t

/-- RGB triples are bare triples of reals, as in the program. -/
abbrev RGB := ℝ × ℝ × ℝ

/-- FireWidget._lerp_color (note: it clamps its blend factor). -/
noncomputable def lerpColor (c0 c1 : RGB) (t : ℝ) : RGB :=
  (lerp c0.1 c1.1 (clamp01 t), lerp c0.2.1 c1.2.1 (clamp01 t),
    lerp c0.2.2 c1.2.2 (clamp01 t))

/-- Palette constant low_hot. -/
def lowHot : RGB := (1.00, 0.15, 0.05)
/-- Palette constant low_mid. -/
def lowMid : RGB := (1.00, 0.55, 0.10)
/-- Palette constant low_tip. -/
def lowTip : RGB := (1.00, 0.95, 0.25)
/-- Palette constant high_hot. -/
def highHot : RGB := (0.10, 0.25, 1.00)
/-- Palette constant high_mid. -/
def highMid : RGB := (0.10, 0.95, 1.00)
/-- Palette constant high_tip. -/
def highTip : RGB := (0.90, 0.95, 1.00)

/-- The energy-interpolated hot reference color, as computed inside `_fire_color`
on the (already clamped) energy. -/
noncomputable def hotColor (energy : ℝ) : RGB := lerpColor lowHot highHot energy
/-- The energy-interpolated mid reference color. -/
noncomputable def midColor (energy : ℝ) : RGB := lerpColor lowMid highMid energy
/-- The energy-interpolated tip reference color. -/
noncomputable def tipColor (energy : ℝ) : RGB := lerpColor lowTip highTip energy

/-- The lifetime ramp of `_fire_color` on the clamped inputs: blend
hot towards mid on the first half of life, mid towards tip on the
second half. -/
noncomputable def fireRGB (e a : ℝ) : RGB :=
  if a < 0.5 then lerpColor (hotColor e) (midColor e) (a / 0.5)
  else lerpColor (midColor e) (tipColor e) ((a - 0.5) / 0.5)

/-- The darkening factor of `_fire_color`: `1.0 - (age01 ** 1.6) * 0.75`. -/
noncomputable def fade (a : ℝ) : ℝ := 1 - a ^ (1.6 : ℝ) * 0.75

/-- FireWidget._fire_color: clamp both inputs, build the two-segment
ramp from the energy-interpolated palette, and scale by the fade. -/
noncomputable def fireColor (energy age01 : ℝ) : RGB :=
  ((fireRGB (clamp01 energy) (clamp01 age01)).1 * fade (clamp01 age01),
   (fireRGB (clamp01 energy) (clamp01 age01)).2.1 * fade (clamp01 age01),
   (fireRGB (clamp01 energy) (clamp01 age01)).2.2 * fade (clamp01 age01))

/-- Truncation toward zero, the semantics of Python `int()` on a float. -/
noncomputable def pyInt (x : ℝ) : ℤ := if 0 ≤ x then ⌊x⌋ else ⌈x⌉

/-- Python `random.uniform a b`, which returns `a + (b - a) * u` for a
uniform draw `u` of `random.random()`. -/
def uniform (a b u : ℝ) : ℝ := a + (b - a) * u

/-- The random draws consumed for one particle inside the spawn loop of
`_spawn_particles`, in call order. -/
structure SpawnDraws where
  uAngle : ℝ
  uRad : ℝ
  uY : ℝ
  uVy : ℝ
  uVx : ℝ
  uVz : ℝ
  uLife : ℝ
  uRadius : ℝ
  uSeed : ℝ

/-- The body of the spawn loop in `_spawn_particles`: the particle built
from energy `e` and one tuple of random draws. -/
noncomputable def makeParticle (e : ℝ) (d : SpawnDraws) : FireParticle :=
  let r := 0.18 + 0.10 * (1 - e)
  let angle := d.uAngle * (2 * Real.pi)
  let rad := d.uRad ^ (0.6 : ℝ) * r
  let x := Real.cos angle * rad
  let z := Real.sin angle * rad
  let y := -1 + uniform 0 0.05 d.uY
  let baseUp := lerp 0.9 2.4 e
  let vy := uniform (baseUp * 0.6) (baseUp * 1.1) d.uVy
  let side := lerp 0.45 0.9 e
  let vx := uniform (-side) side d.uVx
  let vz := uniform (-side) side d.uVz
  let life0 := uniform (lerp 0.55 0.85 e) (lerp 0.85 1.25 e) d.uLife
  let radius := uniform (lerp 0.045 0.030 e) (lerp 0.070 0.050 e) d.uRadius
  { pos := ⟨x, y, z⟩, vel := ⟨vx, vy, vz⟩, life := life0, life0 := life0,
    radius := radius, seed := d.uSeed * 9999.0 }

/-- The number of particles spawned by one `_spawn_particles` call:
`count = int(spawn_float)` plus one when the extra draw `u0` falls below
the fractional remainder. -/
noncomputable def spawnCount (e u0 : ℝ) : ℤ :=
  let spawnFloat := lerp 1.5 10.0 e
  let count := pyInt spawnFloat
  if u0 < spawnFloat - count then count + 1 else count

/-- The list of particles built by the spawn loop of `_spawn_particles`,
with the draws of iteration `i` given by `draws i`. -/
noncomputable def spawnedList (e u0 : ℝ) (draws : ℕ → SpawnDraws) : List FireParticle :=
  (List.range (spawnCount e u0).toNat).map fun i => makeParticle e (draws i)

/-- FireWidget._spawn_particles acting on the particle list: append the
spawned particles, then cap the population by keeping the last 2500
(`self.particles = self.particles[-2500:]`). -/
noncomputable def spawnParticles (e u0 : ℝ) (draws : ℕ → SpawnDraws)
    (ps : List FireParticle) : List FireParticle :=
  if (ps ++ spawnedList e u0 draws).length > 2500 then
    (ps ++ spawnedList e u0 draws).drop ((ps ++ spawnedList e u0 draws).length - 2500)
  else ps ++ spawnedList e u0 draws

/-- The physics applied in the loop body of `_update_particles` to a
particle that stays alive, with `t` the timer-derived phase signal.
The resulting life is the decremented `p.life - dt`. -/
noncomputable def stepAlive (e dt t : ℝ) (p : FireParticle) : FireParticle :=
  let buoyancy := lerp 1.2 3.2 e
  let swirl := lerp 0.8 2.1 e
  let damping := lerp 0.985 0.992 e
  let life := p.life - dt
  let age01 := 1 - life / max p.life0 0.000001
  let vy0 := p.vel.y + buoyancy * dt
  let phase := p.seed * 0.001 + age01 * 6.0 + t * 3.0
  let tx := Real.sin (phase * 3.7) * Real.cos (phase * 1.9)
  let tz := Real.cos (phase * 2.9) * Real.sin (phase * 2.3)
  let vx0 := p.vel.x + tx * swirl * dt
  let vz0 := p.vel.z + tz * swirl * dt
  let vel : Vec3 := ⟨vx0 * damping, vy0 * damping, vz0 * damping⟩
  let pos : Vec3 := ⟨p.pos.x + vel.x * dt, p.pos.y + vel.y * dt, p.pos.z + vel.z * dt⟩
  let radius := p.radius * (1 + 0.25 * dt)
  { pos := ⟨pos.x * 0.999, pos.y, pos.z * 0.999⟩, vel := vel,
    life := life, life0 := p.life0, radius := radius, seed := p.seed }

/-- One iteration of the loop of `_update_particles`: decrement life,
drop the particle when the decremented life is `<= 0` (the `continue`),
otherwise apply the physics. -/
noncomputable def stepParticle (e dt t : ℝ) (p : FireParticle) : Option FireParticle :=
  if p.life - dt ≤ 0 then none else some (stepAlive e dt t p)

/-- FireWidget._update_particles: rebuild the live list from the loop. -/
noncomputable def updateParticles (e dt t : ℝ) (ps : List FireParticle) : List FireParticle :=
  ps.filterMap (stepParticle e dt t)

/-- The camera view-forward vector `cam_dir` of `paintGL`. -/
def camDir : Vec3 := ⟨0, 0, 1⟩

/-- The depth key of `paintGL`: `QVector3D.dotProduct(p.pos, cam_dir)`. -/
def depth (p : FireParticle) : ℝ := Vec3.dot p.pos camDir

/-- The sorted particle list `parts_sorted` of `paintGL`: sort by depth
key descending (Python `sorted` with `reverse=True`, a stable sort). -/
noncomputable def paintOrder (ps : List FireParticle) : List FireParticle :=
  ps.mergeSort fun p q => decide (depth q ≤ depth p)

/-- The fixed timestep `self.dt = 1.0 / 120.0`. -/
noncomputable def fixedDt : ℝ := 1.0 / 120.0

/-- FireWidget.tick: spawn, then advance with the fixed timestep. -/
noncomputable def tick (e u0 : ℝ) (draws : ℕ → SpawnDraws) (t : ℝ)
    (ps : List FireParticle) : List FireParticle :=
  updateParticles e fixedDt t (spawnParticles e u0 draws ps)

/-! Helper lemmas shared by several claims. -/

lemma spawnParticles_suffix (e u0 : ℝ) (draws : ℕ → SpawnDraws) (ps : List FireParticle) :
    spawnParticles e u0 draws ps <:+ ps ++ spawnedList e u0 draws := by
  unfold spawnParticles
  split
  · exact List.drop_suffix _ _
  · exact List.suffix_refl _

lemma spawnParticles_length (e u0 : ℝ) (draws : ℕ → SpawnDraws) (ps : List FireParticle) :
    (spawnParticles e u0 draws ps).length =
      min (ps.length + (spawnedList e u0 draws).length) 2500 := by
  unfold spawnParticles
  split
  · rename_i h
    rw [List.length_drop]
    rw [List.length_append] at h ⊢
    omega
  · rename_i h
    rw [List.length_append] at h ⊢
    omega

lemma stepParticle_of_le (e dt t : ℝ) (p : FireParticle) (h : p.life ≤ dt) :
    stepParticle e dt t p = none := by
  unfold stepParticle
  rw [if_pos (by linarith)]

lemma stepParticle_of_lt (e dt t : ℝ) (p : FireParticle) (h : dt < p.life) :
    stepParticle e dt t p = some (stepAlive e dt t p) := by
  unfold stepParticle
  rw [if_neg (by linarith)]

lemma updateParticles_eq (e dt t : ℝ) (ps : List FireParticle) :
    updateParticles e dt t ps =
      (ps.filter fun p => decide (dt < p.life)).map (stepAlive e dt t) := by
  induction ps with
  | nil => rfl
  | cons p rest ih =>
    simp only [updateParticles] at ih ⊢
    rcases le_or_lt p.life dt with h | h
    · rw [List.filterMap_cons_none (stepParticle_of_le e dt t p h),
        List.filter_cons_of_neg (by simpa using not_lt.mpr h)]
      exact ih
    · rw [List.filterMap_cons_some (stepParticle_of_lt e dt t p h),
        List.filter_cons_of_pos (by simpa using h), List.map_cons, ih]

/-- C1: after any spawn call the population holds at most 2500
particles, and the result is a suffix of the old list followed by the
newly spawned ones, of length `min (old + new) 2500`: when the cap is
exceeded exactly the oldest-inserted excess is dropped and the 2500
most-recently-inserted particles are retained. -/
theorem spawn_cap (e u0 : ℝ) (draws : ℕ → SpawnDraws) (ps : List FireParticle) :
    (spawnParticles e u0 draws ps).length ≤ 2500 ∧
    spawnParticles e u0 draws ps <:+ ps ++ spawnedList e u0 draws ∧
    (spawnParticles e u0 draws ps).length =
      min (ps.length + (spawnedList e u0 draws).length) 2500 := by
  refine ⟨?_, spawnParticles_suffix e u0 draws ps, spawnParticles_length e u0 draws ps⟩
  rw [spawnParticles_length e u0 draws ps]
  omega

/-- C9: the particle list realizes insertion order: spawning appends the
new particles at the tail (exactly, when the cap is not exceeded), cap
eviction removes only a prefix (the result is a suffix of the appended
list), and an advance step keeps the surviving particles in their
relative order (the new list is an order-preserving sublist of the
stepped old list). -/
theorem insertion_order (e u0 dt t : ℝ) (draws : ℕ → SpawnDraws) (ps : List FireParticle) :
    spawnParticles e u0 draws ps <:+ ps ++ spawnedList e u0 draws ∧
    ((ps ++ spawnedList e u0 draws).length ≤ 2500 →
      spawnParticles e u0 draws ps = ps ++ spawnedList e u0 draws) ∧
    List.Sublist (updateParticles e dt t ps) (ps.map (stepAlive e dt t)) := by
  refine ⟨spawnParticles_suffix e u0 draws ps, ?_, ?_⟩
  · intro h
    unfold spawnParticles
    rw [if_neg (by omega)]
  · rw [updateParticles_eq]
    exact List.Sublist.map _ (List.filter_sublist _)

/-- The age fraction `age01 = 1.0 - (p.life / max(p.life0, 1e-6))`, as
computed in both `paintGL` and `_update_particles`. -/
noncomputable def ageFrac (p : FireParticle) : ℝ := 1 - p.life / max p.life0 0.000001

/-- Sample particle used to instantiate hypotheses of the theorems on
concrete inputs. -/
noncomputable def sampleParticle : FireParticle :=
  { pos := ⟨0, 0, 0⟩, vel := ⟨0, 0, 0⟩, life := 1, life0 := 1, radius := 1, seed := 0 }

/-- C2: an advance step decrements every life by exactly dt; a particle
whose decremented life is at most 0 is dropped by the step with no
physics applied (the step returns none for it), a survivor appears as
its stepped image with life decremented by dt, the resulting list is
exactly the stepped survivors in order, and hence every particle
contained after an advance has life > 0. -/
theorem advance_life (e dt t : ℝ) (ps : List FireParticle) :
    (∀ q ∈ updateParticles e dt t ps, 0 < q.life) ∧
    (∀ p : FireParticle, dt < p.life →
      stepParticle e dt t p = some (stepAlive e dt t p) ∧
      (stepAlive e dt t p).life = p.life - dt) ∧
    (∀ p : FireParticle, p.life - dt ≤ 0 → stepParticle e dt t p = none) ∧
    updateParticles e dt t ps =
      (ps.filter fun p => decide (dt < p.life)).map (stepAlive e dt t) := by
  refine ⟨?_, ?_, ?_, updateParticles_eq e dt t ps⟩
  · intro q hq
    rw [updateParticles_eq] at hq
    obtain ⟨p, hp, rfl⟩ := List.mem_map.mp hq
    have hlt : dt < p.life := of_decide_eq_true (List.mem_filter.mp hp).2
    have hq : (stepAlive e dt t p).life = p.life - dt := rfl
    rw [hq]
    linarith
  · intro p hlt
    exact ⟨stepParticle_of_lt e dt t p hlt, rfl⟩
  · intro p hle
    exact stepParticle_of_le e dt t p (by linarith)

/-- C8: a particle surviving an advance step with positive dt has
non-decreasing radius, and its age fraction does not decrease and stays
inside [0, 1]. -/
theorem survivor_monotone (e dt t : ℝ) (p : FireParticle) (hdt : 0 < dt)
    (hrad : 0 ≤ p.radius) (hle : p.life ≤ p.life0) (hsurv : dt < p.life) :
    p.radius ≤ (stepAlive e dt t p).radius ∧
    ageFrac p ≤ ageFrac (stepAlive e dt t p) ∧
    0 ≤ ageFrac (stepAlive e dt t p) ∧ ageFrac (stepAlive e dt t p) ≤ 1 := by
  have hr : (stepAlive e dt t p).radius = p.radius * (1 + 0.25 * dt) := rfl
  have hlife : (stepAlive e dt t p).life = p.life - dt := rfl
  have hlife0 : (stepAlive e dt t p).life0 = p.life0 := rfl
  have hD : (0:ℝ) < max p.life0 0.000001 :=
    lt_of_lt_of_le (by norm_num) (le_max_right _ _)
  have hDle : p.life0 ≤ max p.life0 0.000001 := le_max_left _ _
  refine ⟨?_, ?_, ?_, ?_⟩
  · rw [hr]
    nlinarith
  · unfold ageFrac
    rw [hlife, hlife0]
    have := (div_le_div_iff_of_pos_right hD).mpr (show p.life - dt ≤ p.life by linarith)
    linarith
  · unfold ageFrac
    rw [hlife, hlife0]
    have h1 : (p.life - dt) / max p.life0 0.000001 ≤ 1 :=
      (div_le_one hD).mpr (by linarith)
    linarith
  · unfold ageFrac
    rw [hlife, hlife0]
    have h1 : 0 ≤ (p.life - dt) / max p.life0 0.000001 :=
      div_nonneg (by linarith) hD.le
    linarith

/-- Witness for survivor_monotone at a concrete particle. -/
theorem survivor_monotone_witness :
    ((0:ℝ) < 1/2 ∧ 0 ≤ sampleParticle.radius ∧
      sampleParticle.life ≤ sampleParticle.life0 ∧ 1/2 < sampleParticle.life) ∧
    (sampleParticle.radius ≤ (stepAlive 0 (1/2) 0 sampleParticle).radius ∧
     ageFrac sampleParticle ≤ ageFrac (stepAlive 0 (1/2) 0 sampleParticle) ∧
     0 ≤ ageFrac (stepAlive 0 (1/2) 0 sampleParticle) ∧
     ageFrac (stepAlive 0 (1/2) 0 sampleParticle) ≤ 1) :=
  ⟨⟨by norm_num, by norm_num [sampleParticle], by norm_num [sampleParticle],
    by norm_num [sampleParticle]⟩,
   survivor_monotone 0 (1/2) 0 sampleParticle (by norm_num)
     (by norm_num [sampleParticle]) (by norm_num [sampleParticle])
     (by norm_num [sampleParticle])⟩

/-- C4: the render order is a permutation of the live particle list (so
every live particle is drawn exactly once and none is omitted) and is
pairwise consistent with descending depth, the dot product of position
with the camera view-forward vector (farthest first, ties arbitrary). -/
theorem paint_order_total (ps : List FireParticle) :
    (paintOrder ps).Perm ps ∧
    (paintOrder ps).Pairwise
      (fun p q => Vec3.dot q.pos camDir ≤ Vec3.dot p.pos camDir) := by
  constructor
  · exact List.mergeSort_perm ps _
  · have htrans : ∀ a b c : FireParticle,
        decide (depth b ≤ depth a) = true → decide (depth c ≤ depth b) = true →
        decide (depth c ≤ depth a) = true := by
      intro a b c hab hbc
      exact decide_eq_true (le_trans (of_decide_eq_true hbc) (of_decide_eq_true hab))
    have htotal : ∀ a b : FireParticle,
        (decide (depth b ≤ depth a) || decide (depth a ≤ depth b)) = true := by
      intro a b
      rcases le_total (depth b) (depth a) with h | h
      · simp [decide_eq_true h]
      · simp [decide_eq_true h]
    have h := List.sorted_mergeSort htrans htotal ps
    exact h.imp fun hx => of_decide_eq_true hx

/-! Color model lemmas. -/

lemma clamp01_nonneg (x : ℝ) : 0 ≤ clamp01 x := le_max_left _ _

lemma clamp01_le_one (x : ℝ) : clamp01 x ≤ 1 := max_le (by norm_num) (min_le_left _ _)

lemma clamp01_of_mem {x : ℝ} (h0 : 0 ≤ x) (h1 : x ≤ 1) : clamp01 x = x := by
  unfold clamp01
  rw [min_eq_right h1, max_eq_right h0]

lemma lerp_mem {a b t : ℝ} (ha0 : 0 ≤ a) (ha1 : a ≤ 1) (hb0 : 0 ≤ b) (hb1 : b ≤ 1)
    (ht0 : 0 ≤ t) (ht1 : t ≤ 1) : 0 ≤ lerp a b t ∧ lerp a b t ≤ 1 := by
  unfold lerp
  constructor
  · nlinarith [mul_nonneg ha0 (sub_nonneg.mpr ht1), mul_nonneg hb0 ht0]
  · nlinarith [mul_nonneg (sub_nonneg.mpr ha1) (sub_nonneg.mpr ht1),
      mul_nonneg (sub_nonneg.mpr hb1) ht0]

/-- A color has all components inside the unit interval. -/
def inUnitBox (c : RGB) : Prop :=
  0 ≤ c.1 ∧ c.1 ≤ 1 ∧ 0 ≤ c.2.1 ∧ c.2.1 ≤ 1 ∧ 0 ≤ c.2.2 ∧ c.2.2 ≤ 1

lemma lerpColor_inUnitBox {c0 c1 : RGB} (h0 : inUnitBox c0) (h1 : inUnitBox c1)
    (t : ℝ) : inUnitBox (lerpColor c0 c1 t) := by
  obtain ⟨a1, a2, a3, a4, a5, a6⟩ := h0
  obtain ⟨b1, b2, b3, b4, b5, b6⟩ := h1
  have ht0 := clamp01_nonneg t
  have ht1 := clamp01_le_one t
  exact ⟨(lerp_mem a1 a2 b1 b2 ht0 ht1).1, (lerp_mem a1 a2 b1 b2 ht0 ht1).2,
    (lerp_mem a3 a4 b3 b4 ht0 ht1).1, (lerp_mem a3 a4 b3 b4 ht0 ht1).2,
    (lerp_mem a5 a6 b5 b6 ht0 ht1).1, (lerp_mem a5 a6 b5 b6 ht0 ht1).2⟩

lemma hotColor_inUnitBox (e : ℝ) : inUnitBox (hotColor e) :=
  lerpColor_inUnitBox (by norm_num [inUnitBox, lowHot]) (by norm_num [inUnitBox, highHot]) e

lemma midColor_inUnitBox (e : ℝ) : inUnitBox (midColor e) :=
  lerpColor_inUnitBox (by norm_num [inUnitBox, lowMid]) (by norm_num [inUnitBox, highMid]) e

lemma tipColor_inUnitBox (e : ℝ) : inUnitBox (tipColor e) :=
  lerpColor_inUnitBox (by norm_num [inUnitBox, lowTip]) (by norm_num [inUnitBox, highTip]) e

lemma fireRGB_inUnitBox (e a : ℝ) : inUnitBox (fireRGB e a) := by
  unfold fireRGB
  split
  · exact lerpColor_inUnitBox (hotColor_inUnitBox e) (midColor_inUnitBox e) _
  · exact lerpColor_inUnitBox (midColor_inUnitBox e) (tipColor_inUnitBox e) _

lemma fade_mem {a : ℝ} (h0 : 0 ≤ a) (h1 : a ≤ 1) : 0 ≤ fade a ∧ fade a ≤ 1 := by
  unfold fade
  have hp0 : 0 ≤ a ^ (1.6 : ℝ) := Real.rpow_nonneg h0 _
  have hp1 : a ^ (1.6 : ℝ) ≤ 1 := Real.rpow_le_one h0 h1 (by norm_num)
  constructor <;> nlinarith

/-- C6: the color function is a pure total function of its two real
arguments (it is a Lean function of them, defined for all reals and with
no other dependence), and each RGB component it returns lies in [0,1]. -/
theorem fire_color_total (energy age01 : ℝ) :
    0 ≤ (fireColor energy age01).1 ∧ (fireColor energy age01).1 ≤ 1 ∧
    0 ≤ (fireColor energy age01).2.1 ∧ (fireColor energy age01).2.1 ≤ 1 ∧
    0 ≤ (fireColor energy age01).2.2 ∧ (fireColor energy age01).2.2 ≤ 1 := by
  obtain ⟨a1, a2, a3, a4, a5, a6⟩ :=
    fireRGB_inUnitBox (clamp01 energy) (clamp01 age01)
  obtain ⟨f0, f1⟩ := fade_mem (clamp01_nonneg age01) (clamp01_le_one age01)
  unfold fireColor
  dsimp only
  refine ⟨mul_nonneg a1 f0, ?_, mul_nonneg a3 f0, ?_, mul_nonneg a5 f0, ?_⟩
  all_goals nlinarith

/-- Componentwise linear blend with no clamping: the blend operation as
the specification words it. -/
def blendColor (c0 c1 : RGB) (t : ℝ) : RGB :=
  (lerp c0.1 c1.1 t, lerp c0.2.1 c1.2.1 t, lerp c0.2.2 c1.2.2 t)

/-- The color formula as the specification words it: for age below 0.5
blend the energy-interpolated hot and mid references with factor
age/0.5, otherwise blend mid and tip with factor (age-0.5)/0.5, then
multiply componentwise by the fade 1 - age^1.6 * 0.75. -/
noncomputable def specFireColor (energy age : ℝ) : RGB :=
  ((if age < 0.5 then blendColor (blendColor lowHot highHot energy)
      (blendColor lowMid highMid energy) (age / 0.5)
    else blendColor (blendColor lowMid highMid energy)
      (blendColor lowTip highTip energy) ((age - 0.5) / 0.5)).1 * (1 - age ^ (1.6 : ℝ) * 0.75),
   (if age < 0.5 then blendColor (blendColor lowHot highHot energy)
      (blendColor lowMid highMid energy) (age / 0.5)
    else blendColor (blendColor lowMid highMid energy)
      (blendColor lowTip highTip energy) ((age - 0.5) / 0.5)).2.1 * (1 - age ^ (1.6 : ℝ) * 0.75),
   (if age < 0.5 then blendColor (blendColor lowHot highHot energy)
      (blendColor lowMid highMid energy) (age / 0.5)
    else blendColor (blendColor lowMid highMid energy)
      (blendColor lowTip highTip energy) ((age - 0.5) / 0.5)).2.2 * (1 - age ^ (1.6 : ℝ) * 0.75))

lemma lerp_zero (a b : ℝ) : lerp a b 0 = a := by
  unfold lerp
  ring

lemma lerp_one (a b : ℝ) : lerp a b 1 = b := by
  unfold lerp
  ring

lemma lerpColor_eq_blendColor (c0 c1 : RGB) {t : ℝ} (h0 : 0 ≤ t) (h1 : t ≤ 1) :
    lerpColor c0 c1 t = blendColor c0 c1 t := by
  unfold lerpColor blendColor
  rw [clamp01_of_mem h0 h1]

lemma lerpColor_zero (c0 c1 : RGB) : lerpColor c0 c1 0 = c0 := by
  rw [lerpColor_eq_blendColor c0 c1 le_rfl zero_le_one]
  unfold blendColor
  rw [lerp_zero, lerp_zero, lerp_zero]

lemma lerpColor_one (c0 c1 : RGB) : lerpColor c0 c1 1 = c1 := by
  rw [lerpColor_eq_blendColor c0 c1 zero_le_one le_rfl]
  unfold blendColor
  rw [lerp_one, lerp_one, lerp_one]

/-- C7: on the valid domain the code color equals the two-segment
piecewise-linear ramp scaled by the fade, exactly as the spec words it;
at age 0 the color is the energy-interpolated hot reference, and at age
1 it is the energy-interpolated tip reference scaled by 0.25. -/
theorem fire_color_ramp (energy : ℝ) (he0 : 0 ≤ energy) (he1 : energy ≤ 1) :
    (∀ age, 0 ≤ age → age ≤ 1 → fireColor energy age = specFireColor energy age) ∧
    fireColor energy 0 = blendColor lowHot highHot energy ∧
    fireColor energy 1 =
      ((blendColor lowTip highTip energy).1 * 0.25,
       (blendColor lowTip highTip energy).2.1 * 0.25,
       (blendColor lowTip highTip energy).2.2 * 0.25) := by
  have hcl : clamp01 energy = energy := clamp01_of_mem he0 he1
  have hhot : hotColor energy = blendColor lowHot highHot energy :=
    lerpColor_eq_blendColor _ _ he0 he1
  have hmid : midColor energy = blendColor lowMid highMid energy :=
    lerpColor_eq_blendColor _ _ he0 he1
  have htip : tipColor energy = blendColor lowTip highTip energy :=
    lerpColor_eq_blendColor _ _ he0 he1
  refine ⟨?_, ?_, ?_⟩
  · intro age h0 h1
    have hca : clamp01 age = age := clamp01_of_mem h0 h1
    have hrgb : fireRGB energy age =
        if age < 0.5 then blendColor (blendColor lowHot highHot energy)
          (blendColor lowMid highMid energy) (age / 0.5)
        else blendColor (blendColor lowMid highMid energy)
          (blendColor lowTip highTip energy) ((age - 0.5) / 0.5) := by
      unfold fireRGB
      split
      · rename_i hlt
        rw [hhot, hmid, lerpColor_eq_blendColor _ _
          (div_nonneg h0 (by norm_num))
          ((div_le_one (by norm_num)).mpr (by linarith))]
      · rename_i hge
        rw [hmid, htip, lerpColor_eq_blendColor _ _
          (div_nonneg (by linarith [not_lt.mp hge]) (by norm_num))
          ((div_le_one (by norm_num)).mpr (by linarith))]
    unfold fireColor specFireColor
    rw [hcl, hca, hrgb]
    unfold fade
    rfl
  · unfold fireColor
    rw [hcl, clamp01_of_mem le_rfl zero_le_one]
    have h0 : fireRGB energy 0 = hotColor energy := by
      unfold fireRGB
      rw [if_pos (by norm_num)]
      rw [show (0:ℝ) / 0.5 = 0 by norm_num, lerpColor_zero]
    have hf : fade 0 = 1 := by
      unfold fade
      rw [Real.zero_rpow (by norm_num)]
      ring
    rw [h0, hf, hhot, mul_one, mul_one, mul_one]
  · unfold fireColor
    rw [hcl, clamp01_of_mem zero_le_one le_rfl]
    have h1 : fireRGB energy 1 = tipColor energy := by
      unfold fireRGB
      rw [if_neg (by norm_num)]
      rw [show ((1:ℝ) - 0.5) / 0.5 = 1 by norm_num, lerpColor_one]
    have hf : fade 1 = 0.25 := by
      unfold fade
      rw [Real.one_rpow]
      ring
    rw [h1, hf, htip]

/-- Witness for fire_color_ramp at energy one half. -/
theorem fire_color_ramp_witness :
    ((0:ℝ) ≤ 1/2 ∧ (1/2:ℝ) ≤ 1) ∧
    ((∀ age, 0 ≤ age → age ≤ 1 → fireColor (1/2) age = specFireColor (1/2) age) ∧
     fireColor (1/2) 0 = blendColor lowHot highHot (1/2) ∧
     fireColor (1/2) 1 =
       ((blendColor lowTip highTip (1/2)).1 * 0.25,
        (blendColor lowTip highTip (1/2)).2.1 * 0.25,
        (blendColor lowTip highTip (1/2)).2.2 * 0.25)) :=
  ⟨⟨by norm_num, by norm_num⟩, fire_color_ramp (1/2) (by norm_num) (by norm_num)⟩

/-! Spawn count lemmas. -/

lemma spawnCount_eq (e u0 : ℝ) :
    spawnCount e u0 =
      if u0 < lerp 1.5 10.0 e - (pyInt (lerp 1.5 10.0 e) : ℝ)
      then pyInt (lerp 1.5 10.0 e) + 1 else pyInt (lerp 1.5 10.0 e) := rfl

lemma pyInt_of_nonneg {x : ℝ} (h : 0 ≤ x) : pyInt x = ⌊x⌋ := by
  unfold pyInt
  rw [if_pos h]

lemma rate_nonneg {e : ℝ} (he0 : 0 ≤ e) : 0 ≤ lerp 1.5 10.0 e := by
  unfold lerp
  nlinarith

/-- C3: one spawn call inserts `spawnCount` particles, which is the
floor of the rate `lerp 1.5 10.0 e`, plus one exactly when the extra
draw falls below the fractional remainder of the rate; the set of extra
draws in [0,1) that trigger the extra particle has Lebesgue measure
equal to that fractional remainder. At energy 1 the count is exactly 10
for every draw, and at energy 0 it is 1 or 2. -/
theorem spawn_count_stochastic (e u0 : ℝ) (draws : ℕ → SpawnDraws)
    (he0 : 0 ≤ e) (he1 : e ≤ 1) (hu0 : 0 ≤ u0) (hu1 : u0 < 1) :
    (spawnedList e u0 draws).length = (spawnCount e u0).toNat ∧
    (spawnCount e u0 = ⌊lerp 1.5 10.0 e⌋ ∨
      spawnCount e u0 = ⌊lerp 1.5 10.0 e⌋ + 1) ∧
    {u : ℝ | u ∈ Set.Ico (0:ℝ) 1 ∧ spawnCount e u = ⌊lerp 1.5 10.0 e⌋ + 1} =
      Set.Ico 0 (lerp 1.5 10.0 e - (⌊lerp 1.5 10.0 e⌋ : ℝ)) ∧
    MeasureTheory.volume
        {u : ℝ | u ∈ Set.Ico (0:ℝ) 1 ∧ spawnCount e u = ⌊lerp 1.5 10.0 e⌋ + 1} =
      ENNReal.ofReal (lerp 1.5 10.0 e - (⌊lerp 1.5 10.0 e⌋ : ℝ)) ∧
    (e = 1 → spawnCount e u0 = 10) ∧
    (e = 0 → spawnCount e u0 = 1 ∨ spawnCount e u0 = 2) := by
  have hpy : pyInt (lerp 1.5 10.0 e) = ⌊lerp 1.5 10.0 e⌋ :=
    pyInt_of_nonneg (rate_nonneg he0)
  have hfr0 : (0:ℝ) ≤ lerp 1.5 10.0 e - (⌊lerp 1.5 10.0 e⌋ : ℝ) := by
    have := Int.floor_le (lerp 1.5 10.0 e)
    linarith
  have hfr1 : lerp 1.5 10.0 e - (⌊lerp 1.5 10.0 e⌋ : ℝ) < 1 := by
    have := Int.lt_floor_add_one (lerp 1.5 10.0 e)
    push_cast at this
    linarith
  have hset : {u : ℝ | u ∈ Set.Ico (0:ℝ) 1 ∧ spawnCount e u = ⌊lerp 1.5 10.0 e⌋ + 1} =
      Set.Ico 0 (lerp 1.5 10.0 e - (⌊lerp 1.5 10.0 e⌋ : ℝ)) := by
    ext u
    simp only [Set.mem_setOf_eq, Set.mem_Ico]
    constructor
    · rintro ⟨⟨h0, _⟩, hcnt⟩
      rw [spawnCount_eq, hpy] at hcnt
      refine ⟨h0, ?_⟩
      by_contra hnot
      rw [if_neg hnot] at hcnt
      omega
    · rintro ⟨h0, hlt⟩
      refine ⟨⟨h0, by linarith⟩, ?_⟩
      rw [spawnCount_eq, hpy, if_pos hlt]
  refine ⟨?_, ?_, hset, ?_, ?_, ?_⟩
  · simp [spawnedList]
  · rw [spawnCount_eq, hpy]
    split
    · right
      rfl
    · left
      rfl
  · rw [hset, Real.volume_Ico, sub_zero]
  · intro he
    subst he
    have hr : lerp 1.5 10.0 (1:ℝ) = 10 := by
      unfold lerp
      norm_num
    rw [spawnCount_eq, hpy, hr]
    rw [if_neg (by norm_num; linarith)]
    norm_num
  · intro he
    subst he
    have hr : lerp 1.5 10.0 (0:ℝ) = 1.5 := by
      unfold lerp
      norm_num
    rw [spawnCount_eq, hpy, hr]
    split
    · right
      norm_num
    · left
      norm_num

/-- Witness for spawn_count_stochastic at energy one half and draw one half. -/
theorem spawn_count_stochastic_witness :
    ((0:ℝ) ≤ 1/2 ∧ (1/2:ℝ) ≤ 1 ∧ (0:ℝ) ≤ 1/2 ∧ (1/2:ℝ) < 1) ∧
    ((spawnedList (1/2) (1/2) fun _ => SpawnDraws.mk 0 0 0 0 0 0 0 0 0).length =
        (spawnCount (1/2) (1/2)).toNat ∧
     (spawnCount (1/2) (1/2) = ⌊lerp 1.5 10.0 (1/2)⌋ ∨
       spawnCount (1/2) (1/2) = ⌊lerp 1.5 10.0 (1/2)⌋ + 1) ∧
     {u : ℝ | u ∈ Set.Ico (0:ℝ) 1 ∧ spawnCount (1/2) u = ⌊lerp 1.5 10.0 (1/2)⌋ + 1} =
       Set.Ico 0 (lerp 1.5 10.0 (1/2) - (⌊lerp 1.5 10.0 (1/2)⌋ : ℝ)) ∧
     MeasureTheory.volume
         {u : ℝ | u ∈ Set.Ico (0:ℝ) 1 ∧ spawnCount (1/2) u = ⌊lerp 1.5 10.0 (1/2)⌋ + 1} =
       ENNReal.ofReal (lerp 1.5 10.0 (1/2) - (⌊lerp 1.5 10.0 (1/2)⌋ : ℝ)) ∧
     ((1:ℝ)/2 = 1 → spawnCount (1/2) (1/2) = 10) ∧
     ((1:ℝ)/2 = 0 → spawnCount (1/2) (1/2) = 1 ∨ spawnCount (1/2) (1/2) = 2)) :=
  ⟨⟨by norm_num, by norm_num, by norm_num, by norm_num⟩,
   spawn_count_stochastic (1/2) (1/2) (fun _ => SpawnDraws.mk 0 0 0 0 0 0 0 0 0)
     (by norm_num) (by norm_num) (by norm_num) (by norm_num)⟩

/-! Clamping facts for the error-handling claim. -/

lemma clamp01_idem (x : ℝ) : clamp01 (clamp01 x) = clamp01 x :=
  clamp01_of_mem (clamp01_nonneg x) (clamp01_le_one x)

lemma clamp01_two : clamp01 2 = 1 := by
  norm_num [clamp01]

lemma spawnCount_two_half : spawnCount 2 (1/2) = 18 := by
  have h2 : lerp 1.5 10.0 (2:ℝ) = 18.5 := by
    unfold lerp
    norm_num
  rw [spawnCount_eq, h2, pyInt_of_nonneg (by norm_num)]
  rw [show ⌊(18.5:ℝ)⌋ = 18 by norm_num]
  rw [if_neg (by push_cast; norm_num)]

lemma spawnCount_one_half : spawnCount 1 (1/2) = 10 := by
  have h1 : lerp 1.5 10.0 (1:ℝ) = 10 := by
    unfold lerp
    norm_num
  rw [spawnCount_eq, h1, pyInt_of_nonneg (by norm_num)]
  rw [show ⌊(10:ℝ)⌋ = 10 by norm_num]
  rw [if_neg (by push_cast; norm_num)]

lemma stepAlive_neg_dt :
    (stepAlive 0 (-1) 0 sampleParticle).life = sampleParticle.life + 1 := by
  have h : (stepAlive 0 (-1) 0 sampleParticle).life = sampleParticle.life - (-1) := rfl
  rw [h]
  ring

/-- C5 counterexample: the claim that energy outside [0,1] and negative
dt are clamped in every core operation fails on spawn and advance: at
energy 2 a spawn call takes 18 base particles, not the 10 it would take
were the energy clamped to 1, and an advance with dt = -1 increases the
life of a particle instead of flooring the timestep. -/
theorem no_clamp_in_spawn_advance :
    spawnCount 2 (1/2) = 18 ∧ clamp01 2 = 1 ∧ spawnCount (clamp01 2) (1/2) = 10 ∧
    spawnCount 2 (1/2) ≠ spawnCount (clamp01 2) (1/2) ∧
    (stepAlive 0 (-1) 0 sampleParticle).life = sampleParticle.life + 1 := by
  refine ⟨spawnCount_two_half, clamp01_two, ?_, ?_, stepAlive_neg_dt⟩
  · rw [clamp01_two]
    exact spawnCount_one_half
  · rw [clamp01_two, spawnCount_two_half, spawnCount_one_half]
    omega

/-- C5 amended: all three core operations are total functions of their
real inputs, but only the color operation clamps: fireColor is
insensitive to replacing its inputs by their clamped values, while
spawn and advance use energy and dt exactly as given (energy 2 yields
18 base particles, dt = -1 increases life). -/
theorem clamping_only_in_color :
    (∀ e a, fireColor e a = fireColor (clamp01 e) (clamp01 a)) ∧
    spawnCount 2 (1/2) = 18 ∧
    (stepAlive 0 (-1) 0 sampleParticle).life = sampleParticle.life + 1 := by
  refine ⟨?_, spawnCount_two_half, stepAlive_neg_dt⟩
  intro e a
  unfold fireColor
  rw [clamp01_idem, clamp01_idem]

/-! Nonemptiness after spawn and tick. -/

lemma spawnCount_ge_one {e : ℝ} (u0 : ℝ) (he0 : 0 ≤ e) : 1 ≤ spawnCount e u0 := by
  have hfl : (1:ℤ) ≤ ⌊lerp 1.5 10.0 e⌋ := by
    rw [Int.le_floor]
    unfold lerp
    push_cast
    nlinarith
  rw [spawnCount_eq, pyInt_of_nonneg (rate_nonneg he0)]
  split
  · omega
  · omega

lemma getLast?_drop_of_lt {α : Type} (l : List α) (n : ℕ) (h : n < l.length) :
    (l.drop n).getLast? = l.getLast? := by
  rw [List.getLast?_eq_getElem?, List.getLast?_eq_getElem?, List.getElem?_drop,
    List.length_drop]
  congr 1
  omega

lemma append_getLast? {α : Type} (l l2 : List α) (h : l2 ≠ []) :
    (l ++ l2).getLast? = l2.getLast? := by
  rw [List.getLast?_append]
  obtain ⟨a, ha⟩ := Option.isSome_iff_exists.mp (List.getLast?_isSome.mpr h)
  rw [ha]
  rfl

lemma spawnParticles_getLast? (e u0 : ℝ) (draws : ℕ → SpawnDraws)
    (ps : List FireParticle) (h : spawnedList e u0 draws ≠ []) :
    (spawnParticles e u0 draws ps).getLast? = (spawnedList e u0 draws).getLast? := by
  unfold spawnParticles
  split
  · rename_i hgt
    rw [getLast?_drop_of_lt _ _ (by omega)]
    exact append_getLast? _ _ h
  · exact append_getLast? _ _ h

lemma makeParticle_life {e : ℝ} (d : SpawnDraws) (he0 : 0 ≤ e)
    (hu : 0 ≤ d.uLife) : 0.55 ≤ (makeParticle e d).life := by
  have h : (makeParticle e d).life =
      uniform (lerp 0.55 0.85 e) (lerp 0.85 1.25 e) d.uLife := rfl
  rw [h]
  unfold uniform lerp
  nlinarith

/-- C10: with energy in [0,1] a spawn call takes at least one particle
(the base count floor(lerp 1.5 10 e) is at least 1), so the collection
is nonempty right after the spawn, and since every freshly spawned
particle has life at least 0.55, greater than the fixed timestep, the
collection is also nonempty immediately after a full tick. -/
theorem spawn_never_empty (e u0 t : ℝ) (draws : ℕ → SpawnDraws)
    (ps : List FireParticle) (he0 : 0 ≤ e) (he1 : e ≤ 1)
    (hu0 : 0 ≤ u0) (hu1 : u0 < 1) (hd : ∀ i, 0 ≤ (draws i).uLife) :
    1 ≤ spawnCount e u0 ∧
    spawnParticles e u0 draws ps ≠ [] ∧
    tick e u0 draws t ps ≠ [] := by
  have hcnt := spawnCount_ge_one u0 he0
  have hsp_len : (spawnedList e u0 draws).length = (spawnCount e u0).toNat := by
    simp [spawnedList]
  have hsp_ne : spawnedList e u0 draws ≠ [] := by
    apply List.ne_nil_of_length_pos
    rw [hsp_len]
    omega
  have hres_ne : spawnParticles e u0 draws ps ≠ [] := by
    apply List.ne_nil_of_length_pos
    rw [spawnParticles_length e u0 draws ps]
    have h1 : 0 < (spawnedList e u0 draws).length := by
      rw [hsp_len]
      omega
    omega
  refine ⟨hcnt, hres_ne, ?_⟩
  obtain ⟨q, hq⟩ :=
    Option.isSome_iff_exists.mp (List.getLast?_isSome.mpr hsp_ne)
  have hgl : (spawnParticles e u0 draws ps).getLast? = some q := by
    rw [spawnParticles_getLast? e u0 draws ps hsp_ne]
    exact hq
  have hq_res : q ∈ spawnParticles e u0 draws ps :=
    List.mem_of_getLast?_eq_some hgl
  have hq_sp : q ∈ spawnedList e u0 draws := List.mem_of_getLast?_eq_some hq
  unfold spawnedList at hq_sp
  obtain ⟨i, hi, hqi⟩ := List.mem_map.mp hq_sp
  have hlife : fixedDt < q.life := by
    rw [← hqi]
    have h55 := makeParticle_life (draws i) he0 (hd i)
    unfold fixedDt
    linarith
  intro hnil
  have hnone := (List.filterMap_eq_nil_iff.mp hnil) q hq_res
  rw [stepParticle_of_lt e fixedDt t q hlife] at hnone
  simp at hnone

/-- Witness for spawn_never_empty at concrete inputs. -/
theorem spawn_never_empty_witness :
    ((0:ℝ) ≤ 1/2 ∧ (1/2:ℝ) ≤ 1 ∧ (0:ℝ) ≤ 1/2 ∧ (1/2:ℝ) < 1 ∧
      ∀ i : ℕ, 0 ≤ ((fun _ => SpawnDraws.mk 0 0 0 0 0 0 0 0 0) i).uLife) ∧
    (1 ≤ spawnCount (1/2) (1/2) ∧
     spawnParticles (1/2) (1/2) (fun _ => SpawnDraws.mk 0 0 0 0 0 0 0 0 0) [] ≠ [] ∧
     tick (1/2) (1/2) (fun _ => SpawnDraws.mk 0 0 0 0 0 0 0 0 0) 0 [] ≠ []) :=
  ⟨⟨by norm_num, by norm_num, by norm_num, by norm_num, fun i => le_rfl⟩,
   spawn_never_empty (1/2) (1/2) 0 (fun _ => SpawnDraws.mk 0 0 0 0 0 0 0 0 0) []
     (by norm_num) (by norm_num) (by norm_num) (by norm_num) (fun i => le_rfl)⟩

end FireEntropy
